import Mathlib

/-!
Verification of the model loader of LLaMA-Factory-Tensorized
(`src/llmtuner/model/loader.py`).

The loader is an orchestration function over external ML libraries
(transformers, trl, tensorizer, peft).  We embed it shallowly as a pure
function that, given the caller's arguments and an environment describing
the externally determined facts (DeepSpeed ZeRO-3 state, the model's
quantization attribute, whether value-head parameters are found on disk),
produces the sequence of external calls it performs (a trace of `Event`s)
together with its result.  External calls can raise: an `Oracle` assigns to
each event an optional exception; execution stops at the first event whose
oracle entry fires and propagates that error unmodified, which is exactly
the Python exception semantics of the straight-line source function.
-/

namespace LlamaFactoryTensorized

/-- Exceptions raised by external library calls, identified by their message. -/
abbrev Err := String

/-- Mirror of `llmtuner.hparams.ModelArguments`, restricted to the fields the
loader reads.  (The class itself lives outside the loader module; fields and
their defaults are taken from the loader's uses of `model_args`.) -/
structure ModelArguments where
  model_name_or_path : String
  cache_dir : Option String
  model_revision : String
  hf_hub_token : Option String
  use_fast_tokenizer : Bool
  split_special_tokens : Bool
  compute_dtype : String
  adapter_name_or_path : Option (List String)
  deriving DecidableEq

/-- Mirror of `llmtuner.hparams.FinetuningArguments`: the loader only passes
it through to external helpers, so one representative field suffices. -/
structure FinetuningArguments where
  finetuning_type : String
  deriving DecidableEq

/-- Externally determined facts the loader consults.
`ds_zero3` is the value of `is_deepspeed_zero3_enabled()`;
`quantization_method` is the value of
`getattr(model, "quantization_method", None)` after weight loading, an
attribute set (or not) by the external quantization machinery;
`vhead_params_found` records whether `load_valuehead_params` returns a
parameter dict (`true`) or `None` (`false`). -/
structure Env where
  ds_zero3 : Bool
  quantization_method : Option String
  vhead_params_found : Bool
  deriving DecidableEq

/-- The tokenizer object, restricted to the attributes the loader sets via
the keyword arguments of `AutoTokenizer.from_pretrained`. -/
structure Tokenizer where
  padding_side : String
  use_fast : Bool
  split_special_tokens : Bool
  deriving DecidableEq

/-- Which weight-materialization path built the model. -/
inductive LoadMethod where
  | tensorizer
  | standard
  deriving DecidableEq

/-- The model object, restricted to the state the loader manipulates:
gradient/mode flags, dtype, the externally set quantization attribute, and
flags recording which in-place transformations have been applied to it. -/
structure Model where
  load_method : LoadMethod
  requires_grad : Bool
  training : Bool
  dtype : Option String
  quantization_method : Option String
  embedding_resized : Bool
  prepared_for_training : Bool
  has_adapter : Bool
  has_valuehead : Bool
  vhead_loaded : Bool
  deriving DecidableEq

/-- `pre` is an initial segment of `l` (structural model of `str.startswith`
on character lists, kept kernel-reducible). -/
def listBeginsWith : List Char → List Char → Bool
  | [], _ => true
  | _ :: _, [] => false
  | p :: ps, c :: cs => p == c && listBeginsWith ps cs

/-- Python `s.startswith(p)`. -/
def strBeginsWith (s p : String) : Bool :=
  listBeginsWith p.data s.data

/-- Python `s.endswith(p)`. -/
def strEndsWith (s p : String) : Bool :=
  listBeginsWith p.data.reverse s.data.reverse

/-- Python `s.split("/")`. -/
def splitSlash : List Char → List String
  | [] => [""]
  | c :: cs =>
    let rest := splitSlash cs
    if c == '/' then "" :: rest
    else
      match rest with
      | [] => [String.mk [c]]
      | h :: t => String.mk (c :: h.data) :: t

/-- Python `"/".join(parts)`. -/
def joinSlash : List String → String
  | [] => ""
  | [p] => p
  | p :: ps => p ++ "/" ++ joinSlash ps

/-- Path components in the sense of `pathlib.PurePosixPath`: split on `/`,
dropping empty components and `.` components. -/
def pathParts (s : String) : List String :=
  (splitSlash s.data).filter (fun c => !(c == "") && !(c == "."))

/-- `pathlib.Path(s).name`: the final path component, `""` when there is none. -/
def pathName (s : String) : String :=
  (pathParts s).getLastD ""

/-- `str(pathlib.Path(s).parent)`: drop the final component; the parent of a
component-free path is `/` when absolute and `.` otherwise. -/
def pathParent (s : String) : String :=
  let root := strBeginsWith s "/"
  let parts := (pathParts s).dropLast
  if parts = [] then (if root then "/" else ".")
  else (if root then "/" else "") ++ joinSlash parts

/-- `os.path.join a b` for the two-argument uses in the loader. -/
def osPathJoin (a b : String) : String :=
  if strBeginsWith b "/" then b
  else if a == "" || strEndsWith a "/" then a ++ b
  else a ++ "/" ++ b

/-- The external calls and observable side effects performed by
`load_model_and_tokenizer`, in source order of appearance. -/
inductive Event where
  | tryDownloadModelFromMs
  | autoTokenizerFromPretrained (path : String) (padding_side : String)
  | autoConfigFromPretrained (path : String)
  | patchTokenizer
  | patchConfig
  | configureRope
  | configureFlashattn
  | configureLonglora
  | configureQuantization
  | getMemUsage
  | fromConfigNoInit
  | tensorDeserializerOpen (file : String)
  | loadIntoModule
  | deserializerClose
  | printThroughput
  | printMemBefore
  | printMemAfter
  | fromPretrained (path : String) (low_cpu_mem_usage : Bool)
  | patchModel
  | registerAutoclass
  | resizeEmbeddingLayer
  | prepareModelForTraining
  | initAdapter
  | valueheadFromPretrained
  | patchValueheadModel
  | loadValueheadParams (path : String)
  | loadStateDict (strict : Bool)
  | logLoadedValuehead
  | requiresGradFalse
  | toDtype (dtype : String)
  | evalMode
  | trainMode
  | countParameters
  | logParams
  | logInferenceNote
  deriving DecidableEq

/-- For each external call, whether it raises and with which exception. -/
abbrev Oracle := Event → Option Err

/-- Source lines 127-137, trace part: the in-place freeze / train-mode calls
and the parameter-count logging at the tail of the loader.
`quantization_method` is the model's externally set attribute. -/
def finishTrace (model_args : ModelArguments) (is_trainable : Bool)
    (quantization_method : Option String) : List Event :=
  (if !is_trainable then
     [Event.requiresGradFalse] ++
     (if quantization_method.isNone then [Event.toDtype model_args.compute_dtype] else []) ++
     [Event.evalMode]
   else [Event.trainMode]) ++
  [Event.countParameters, Event.logParams] ++
  (if !is_trainable then [Event.logInferenceNote] else [])

/-- Source lines 127-137, state part: the effect of the tail of the loader
on the model object. -/
def finishModel (model_args : ModelArguments) (is_trainable : Bool)
    (model : Model) : Model :=
  if !is_trainable then
    let m := { model with requires_grad := false }
    let m :=
      if m.quantization_method.isNone then { m with dtype := some model_args.compute_dtype }
      else m
    { m with training := false }
  else { model with training := true }

/-- Source lines 120-125, trace part: `load_valuehead_params(vhead_path, ...)`
followed by the non-strict `load_state_dict` merge (and its log line) when
parameters were found. -/
def vheadTrace (env : Env) (vhead_path : String) : List Event :=
  [Event.loadValueheadParams vhead_path] ++
  (if env.vhead_params_found then [Event.loadStateDict false, Event.logLoadedValuehead] else [])

/-- Source lines 120-125, state part. -/
def vheadModel (env : Env) (model : Model) : Model :=
  if env.vhead_params_found then { model with vhead_loaded := true } else model

/-- Source lines 76-103, state part: the freshly materialized model object.
It is an uninitialized shell filled by the tensor deserializer on the fast
path and a `from_pretrained` model (with the requested dtype) otherwise; on
both paths the `quantization_method` attribute is whatever the external
quantization machinery set. -/
def materializedModel (env : Env) (ma : ModelArguments) (file_name : String) : Model :=
  if strEndsWith file_name ".tensors" then
    { load_method := LoadMethod.tensorizer, requires_grad := true, training := true,
      dtype := none, quantization_method := env.quantization_method,
      embedding_resized := false, prepared_for_training := false,
      has_adapter := false, has_valuehead := false, vhead_loaded := false }
  else
    { load_method := LoadMethod.standard, requires_grad := true, training := true,
      dtype := some ma.compute_dtype, quantization_method := env.quantization_method,
      embedding_resized := false, prepared_for_training := false,
      has_adapter := false, has_valuehead := false, vhead_loaded := false }

/-- Source lines 105-111, state part: embedding resize (unless DeepSpeed
ZeRO-3), optional training preparation, adapter attachment. -/
def postloadModel (env : Env) (is_trainable : Bool) (model : Model) : Model :=
  let model := if !env.ds_zero3 then { model with embedding_resized := true } else model
  let model := if is_trainable then { model with prepared_for_training := true } else model
  { model with has_adapter := true }

/-- Source line 114: `AutoModelForCausalLMWithValueHead.from_pretrained(model)`. -/
def valueheadWrap (model : Model) : Model :=
  { model with has_valuehead := true }

/-- The sequence of external calls performed by a complete execution of
`load_model_and_tokenizer` (source lines 35-142), in source order.
(`firstFailure` below accounts for executions cut short by an external
exception.)  Branch conditions mirror the source's `if`s; the
`add_valuehead` block stops at the `adapter_name_or_path[-1]` lookup when
that list is empty (Python `IndexError`). -/
def loadTrace (env : Env) (model_args : ModelArguments)
    (_finetuning_args : FinetuningArguments)
    (is_trainable : Bool) (add_valuehead : Bool) : List Event :=
  let model_path := model_args.model_name_or_path
  let file_name := pathName model_path
  let model_args := { model_args with model_name_or_path := pathParent model_path }
  [Event.tryDownloadModelFromMs,
   Event.autoTokenizerFromPretrained model_args.model_name_or_path "right",
   Event.autoConfigFromPretrained model_args.model_name_or_path,
   Event.patchTokenizer, Event.patchConfig, Event.configureRope,
   Event.configureFlashattn, Event.configureLonglora, Event.configureQuantization] ++
  (if strEndsWith file_name ".tensors" then
     [Event.getMemUsage, Event.fromConfigNoInit,
      Event.tensorDeserializerOpen (osPathJoin model_args.model_name_or_path file_name),
      Event.loadIntoModule, Event.getMemUsage, Event.deserializerClose,
      Event.printThroughput, Event.printMemBefore, Event.printMemAfter]
   else
     [Event.fromPretrained model_args.model_name_or_path (!env.ds_zero3)]) ++
  [Event.patchModel, Event.registerAutoclass] ++
  (if !env.ds_zero3 then [Event.resizeEmbeddingLayer] else []) ++
  (if is_trainable then [Event.prepareModelForTraining] else []) ++
  [Event.initAdapter] ++
  (if add_valuehead then
     [Event.valueheadFromPretrained, Event.patchValueheadModel] ++
     (match model_args.adapter_name_or_path with
      | some paths =>
        match paths.getLast? with
        | some vhead_path =>
          vheadTrace env vhead_path ++
          finishTrace model_args is_trainable env.quantization_method
        | none => []
      | none =>
        vheadTrace env model_args.model_name_or_path ++
        finishTrace model_args is_trainable env.quantization_method)
   else finishTrace model_args is_trainable env.quantization_method)

/-- The result of a complete execution of `load_model_and_tokenizer`
(source lines 35-142): the mutated `model_args`, the final model object and
the tokenizer — or the `IndexError` of `adapter_name_or_path[-1]` on an
empty list.  Mirrors the source's object mutations statement by statement;
`quantization_method` is taken from the environment, being set externally
during weight loading. -/
def loadResult (env : Env) (model_args : ModelArguments)
    (_finetuning_args : FinetuningArguments)
    (is_trainable : Bool) (add_valuehead : Bool) :
    Except Err (ModelArguments × Model × Tokenizer) :=
  let model_path := model_args.model_name_or_path
  let file_name := pathName model_path
  let model_args := { model_args with model_name_or_path := pathParent model_path }
  let tokenizer : Tokenizer :=
    { padding_side := "right"
      use_fast := model_args.use_fast_tokenizer
      split_special_tokens := model_args.split_special_tokens }
  let model := materializedModel env model_args file_name
  let model := postloadModel env is_trainable model
  if add_valuehead then
    let model := valueheadWrap model
    match model_args.adapter_name_or_path with
    | some paths =>
      match paths.getLast? with
      | some _vhead_path =>
        Except.ok (model_args,
          finishModel model_args is_trainable (vheadModel env model), tokenizer)
      | none => Except.error "IndexError: list index out of range"
    | none =>
      Except.ok (model_args,
        finishModel model_args is_trainable (vheadModel env model), tokenizer)
  else
    Except.ok (model_args, finishModel model_args is_trainable model, tokenizer)

/-- Walk a planned trace against the oracle: return the executed prefix
(ending with the raising call) and the exception of the first external call
that raises, if any. -/
def firstFailure (oracle : Oracle) : List Event → Option (List Event × Err)
  | [] => none
  | e :: rest =>
    match oracle e with
    | some err => some ([e], err)
    | none =>
      match firstFailure oracle rest with
      | some (pre, err) => some (e :: pre, err)
      | none => none

/-- `load_model_and_tokenizer` with exception semantics: the first external
call the oracle makes raise aborts execution there and its error propagates
unmodified; otherwise the execution runs to completion with trace
`loadTrace` and result `loadResult`. -/
def load_model_and_tokenizer (oracle : Oracle) (env : Env)
    (model_args : ModelArguments) (finetuning_args : FinetuningArguments)
    (is_trainable : Bool) (add_valuehead : Bool) :
    List Event × Except Err (ModelArguments × Model × Tokenizer) :=
  let tr := loadTrace env model_args finetuning_args is_trainable add_valuehead
  match firstFailure oracle tr with
  | some (pre, err) => (pre, Except.error err)
  | none => (tr, loadResult env model_args finetuning_args is_trainable add_valuehead)

/-- Numeric-release comparison `a >= b` on dotted version numbers, missing
trailing components reading as zero (the semantics `require_version`
delegates to for the loader's numeric requirements). -/
def verGE : List Nat → List Nat → Bool
  | _, [] => true
  | [], b :: bs => (b == 0) && verGE [] bs
  | a :: as, b :: bs =>
    if b < a then true
    else if a < b then false
    else verGE as bs

/-- Version equality `a == b` up to trailing zeros. -/
def verEQ (a b : List Nat) : Bool :=
  verGE a b && verGE b a

/-- The installed versions of the five packages the loader module checks. -/
structure InstalledVersions where
  transformers : List Nat
  datasets : List Nat
  accelerate : List Nat
  peft : List Nat
  trl : List Nat
  deriving DecidableEq

/-- `require_version` (transformers.utils.versions): raise the hint when the
installed version fails the requirement. -/
def require_version (ok : Bool) (hint : String) : Except Err Unit :=
  if ok then Except.ok () else Except.error hint

/-- Source lines 28-32: the module-level `require_version` calls run when the
loader module is imported, in source order. -/
def loaderModuleChecks (v : InstalledVersions) : Except Err Unit :=
  match require_version (verGE v.transformers [4, 36, 1]) "To fix: pip install transformers>=4.36.1" with
  | Except.error e => Except.error e
  | Except.ok () =>
  match require_version (verGE v.datasets [2, 14, 3]) "To fix: pip install datasets>=2.14.3" with
  | Except.error e => Except.error e
  | Except.ok () =>
  match require_version (verGE v.accelerate [0, 21, 0]) "To fix: pip install accelerate>=0.21.0" with
  | Except.error e => Except.error e
  | Except.ok () =>
  match require_version (verGE v.peft [0, 7, 0]) "To fix: pip install peft>=0.7.0" with
  | Except.error e => Except.error e
  | Except.ok () =>
  require_version (verEQ v.trl [0, 7, 4]) "To fix: pip install trl==0.7.4"

/-- Calling the loader requires importing its module first: the version
checks run before any call can be made. -/
def loadAfterModuleChecks (v : InstalledVersions) (oracle : Oracle) (env : Env)
    (model_args : ModelArguments) (finetuning_args : FinetuningArguments)
    (is_trainable : Bool) (add_valuehead : Bool) :
    Except Err (ModelArguments × Model × Tokenizer) :=
  match loaderModuleChecks v with
  | Except.error e => Except.error e
  | Except.ok () =>
    (load_model_and_tokenizer oracle env model_args finetuning_args
      is_trainable add_valuehead).2

/-- Sample inputs used to instantiate the universally quantified theorems
below at concrete values. -/
def envNone : Env :=
  { ds_zero3 := false, quantization_method := none, vhead_params_found := false }

/-- Sample environment with value-head parameters present on disk. -/
def envVhead : Env :=
  { ds_zero3 := false, quantization_method := none, vhead_params_found := true }

/-- Sample environment with DeepSpeed ZeRO-3 enabled. -/
def envZero3 : Env :=
  { ds_zero3 := true, quantization_method := none, vhead_params_found := false }

/-- Sample arguments pointing at a tensorizer container file. -/
def maTensors : ModelArguments :=
  { model_name_or_path := "models/llama.tensors", cache_dir := none, model_revision := "main",
    hf_hub_token := none, use_fast_tokenizer := true, split_special_tokens := false,
    compute_dtype := "float16", adapter_name_or_path := none }

/-- Sample arguments pointing at an ordinary checkpoint directory. -/
def maPlain : ModelArguments :=
  { model_name_or_path := "models/llama-7b", cache_dir := none, model_revision := "main",
    hf_hub_token := none, use_fast_tokenizer := true, split_special_tokens := false,
    compute_dtype := "bfloat16", adapter_name_or_path := some ["adapters/sft"] }

/-- Sample finetuning arguments. -/
def faLora : FinetuningArguments := { finetuning_type := "lora" }

/-- The oracle of a run in which no external call raises. -/
def noRaise : Oracle := fun _ => none

/-- `a` occurs strictly before `b` in the trace `tr`. -/
def EventBefore (tr : List Event) (a b : Event) : Prop :=
  ∃ l r, tr = l ++ r ∧ a ∈ l ∧ b ∈ r

/-- The resolved value-head checkpoint path (source lines 116-119): the last
adapter path when adapters are configured, the (mutated) model path
otherwise. -/
def vheadPathResolved (ma : ModelArguments) : String :=
  match ma.adapter_name_or_path with
  | some paths => paths.getLastD (pathParent ma.model_name_or_path)
  | none => pathParent ma.model_name_or_path

theorem EventBefore.head {a b : Event} {tr : List Event} (hb : b ∈ tr) :
    EventBefore (a :: tr) a b :=
  ⟨[a], tr, rfl, List.mem_singleton.mpr rfl, hb⟩

theorem EventBefore.cons {a b e : Event} {tr : List Event} (h : EventBefore tr a b) :
    EventBefore (e :: tr) a b := by
  obtain ⟨l, r, h1, h2, h3⟩ := h
  exact ⟨e :: l, r, by rw [h1]; rfl, List.mem_cons_of_mem e h2, h3⟩

theorem EventBefore.append_left {a b : Event} {r : List Event} (l : List Event)
    (h : EventBefore r a b) : EventBefore (l ++ r) a b := by
  obtain ⟨l1, r1, h1, h2, h3⟩ := h
  exact ⟨l ++ l1, r1, by rw [h1, List.append_assoc], List.mem_append_right l h2, h3⟩

theorem eventBefore_append {a b : Event} {l r : List Event} (ha : a ∈ l) (hb : b ∈ r) :
    EventBefore (l ++ r) a b :=
  ⟨l, r, rfl, ha, hb⟩

theorem firstFailure_spec (oracle : Oracle) :
    ∀ l pre err, firstFailure oracle l = some (pre, err) →
      ∃ p ev rest, pre = p ++ [ev] ∧ l = p ++ ev :: rest ∧
        (∀ x ∈ p, oracle x = none) ∧ oracle ev = some err := by
  intro l
  induction l with
  | nil => intro pre err h; simp [firstFailure] at h
  | cons e rest ih =>
    intro pre err h
    rw [firstFailure] at h
    cases ho : oracle e with
    | some e2 =>
      rw [ho] at h
      obtain ⟨h1, h2⟩ := Prod.mk.injEq .. ▸ Option.some.inj h
      exact ⟨[], e, rest, by simp [← h1], by simp, by simp, by rw [ho, h2]⟩
    | none =>
      rw [ho] at h
      cases hff : firstFailure oracle rest with
      | none => rw [hff] at h; cases h
      | some pr =>
        obtain ⟨pre2, err2⟩ := pr
        rw [hff] at h
        obtain ⟨h1, h2⟩ := Prod.mk.injEq .. ▸ Option.some.inj h
        obtain ⟨p, ev, rest2, g1, g2, g3, g4⟩ := ih pre2 err2 hff
        refine ⟨e :: p, ev, rest2, ?_, ?_, ?_, by rw [g4, h2]⟩
        · rw [← h1, g1]; rfl
        · rw [g2]; rfl
        · intro x hx
          rcases List.mem_cons.mp hx with h | h
          · rw [h, ho]
          · exact g3 x h

theorem firstFailure_none (oracle : Oracle) :
    ∀ l, firstFailure oracle l = none → ∀ x ∈ l, oracle x = none := by
  intro l
  induction l with
  | nil => intro _ x hx; cases hx
  | cons e rest ih =>
    intro h x hx
    rw [firstFailure] at h
    cases ho : oracle e with
    | some e2 => rw [ho] at h; cases h
    | none =>
      rw [ho] at h
      cases hff : firstFailure oracle rest with
      | some pr => rw [hff] at h; cases h
      | none =>
        rcases List.mem_cons.mp hx with h2 | h2
        · rw [h2, ho]
        · exact ih hff x h2

set_option maxHeartbeats 2000000 in
/-- C2: in every execution of `load_model_and_tokenizer` the configuration
patches run in the fixed order `patch_tokenizer`, `patch_config`,
`configure_rope`, `configure_flashattn`, `configure_longlora`,
`configure_quantization` — immediately after the tokenizer and config are
constructed — and all of them complete before any model weights are
materialized (before the fast-deserialization block or the
`from_pretrained` call); none of the six patches runs a second time. -/
theorem loader_patches_fixed_order_before_materialization
    (env : Env) (ma : ModelArguments) (fa : FinetuningArguments) (t vh : Bool) :
    ∃ rest, loadTrace env ma fa t vh =
      [Event.tryDownloadModelFromMs,
       Event.autoTokenizerFromPretrained (pathParent ma.model_name_or_path) "right",
       Event.autoConfigFromPretrained (pathParent ma.model_name_or_path),
       Event.patchTokenizer, Event.patchConfig, Event.configureRope,
       Event.configureFlashattn, Event.configureLonglora, Event.configureQuantization] ++ rest ∧
      (Event.fromConfigNoInit ∈ rest ∨ ∃ p l, Event.fromPretrained p l ∈ rest) ∧
      Event.patchTokenizer ∉ rest ∧ Event.patchConfig ∉ rest ∧ Event.configureRope ∉ rest ∧
      Event.configureFlashattn ∉ rest ∧ Event.configureLonglora ∉ rest ∧
      Event.configureQuantization ∉ rest := by
  by_cases hc : strEndsWith (pathName ma.model_name_or_path) ".tensors"
  · simp only [loadTrace, hc, if_true, List.append_assoc, List.cons_append, List.nil_append]
    refine ⟨_, rfl, Or.inl (by simp), ?_, ?_, ?_, ?_, ?_, ?_⟩ <;>
    · simp only [vheadTrace, finishTrace]
      split_ifs <;> simp_all <;> rcases ma.adapter_name_or_path with _ | paths <;>
        simp_all <;> rcases paths.getLast? with _ | p <;> simp_all
  · simp only [loadTrace, hc, if_false, Bool.false_eq_true, List.append_assoc, List.cons_append,
      List.nil_append]
    refine ⟨_, rfl, Or.inr ⟨pathParent ma.model_name_or_path, !env.ds_zero3, by simp⟩,
      ?_, ?_, ?_, ?_, ?_, ?_⟩ <;>
    · simp only [vheadTrace, finishTrace]
      split_ifs <;> simp_all <;> rcases ma.adapter_name_or_path with _ | paths <;>
        simp_all <;> rcases paths.getLast? with _ | p <;> simp_all

/-- C10: the tokenizer is always constructed with padding side fixed to
`"right"` (the second external call of every execution), no other tokenizer
construction happens later, and the returned tokenizer has padding side
`"right"` whatever the arguments and flags are. -/
theorem loader_tokenizer_padding_side_right
    (env : Env) (ma : ModelArguments) (fa : FinetuningArguments) (t vh : Bool) :
    (∃ rest, loadTrace env ma fa t vh =
       Event.tryDownloadModelFromMs ::
       Event.autoTokenizerFromPretrained (pathParent ma.model_name_or_path) "right" :: rest ∧
       ∀ p s, Event.autoTokenizerFromPretrained p s ∉ rest) ∧
    (∀ ma2 m tok, loadResult env ma fa t vh = Except.ok (ma2, m, tok) →
       tok.padding_side = "right") := by
  constructor
  · by_cases hc : strEndsWith (pathName ma.model_name_or_path) ".tensors"
    · simp only [loadTrace, hc, if_true, List.append_assoc, List.cons_append, List.nil_append]
      refine ⟨_, rfl, ?_⟩
      intro p s
      simp only [vheadTrace, finishTrace]
      split_ifs <;> simp_all <;> rcases ma.adapter_name_or_path with _ | paths <;>
        simp_all <;> rcases paths.getLast? with _ | q <;> simp_all
    · simp only [loadTrace, hc, if_false, Bool.false_eq_true, List.append_assoc,
        List.cons_append, List.nil_append]
      refine ⟨_, rfl, ?_⟩
      intro p s
      simp only [vheadTrace, finishTrace]
      split_ifs <;> simp_all <;> rcases ma.adapter_name_or_path with _ | paths <;>
        simp_all <;> rcases paths.getLast? with _ | q <;> simp_all
  · intro ma2 m tok h
    rcases hv : vh with _ | _
    · rw [hv] at h
      simp only [loadResult, Bool.false_eq_true, if_false, Except.ok.injEq, Prod.mk.injEq] at h
      rcases h with ⟨-, -, h3⟩
      rw [← h3]
    · rw [hv] at h
      rcases ha : ma.adapter_name_or_path with _ | paths
      · simp only [loadResult, ha, Except.ok.injEq, Prod.mk.injEq, if_true] at h
        rcases h with ⟨-, -, h3⟩
        rw [← h3]
      · rcases hl : paths.getLast? with _ | p
        · simp only [loadResult, ha, hl, if_true] at h
          exact Except.noConfusion h
        · simp only [loadResult, ha, hl, if_true, Except.ok.injEq, Prod.mk.injEq] at h
          rcases h with ⟨-, -, h3⟩
          rw [← h3]

set_option maxHeartbeats 2000000 in
/-- C1: the fast deserialization path is taken if and only if the file-name
component of `model_args.model_name_or_path` ends in `".tensors"`.  On the
fast path the model is built as an empty shell from the configuration alone
(`AutoModelForCausalLM.from_config` under `no_init_or_tensor`), the weights
are stream-deserialized into it from the single container file, throughput
and memory-usage deltas are reported, and `from_pretrained` is never
invoked; on every other call `from_pretrained` is used and no tensorizer
call happens. -/
theorem loader_tensors_fast_path_iff
    (env : Env) (ma : ModelArguments) (fa : FinetuningArguments) (t vh : Bool) :
    if strEndsWith (pathName ma.model_name_or_path) ".tensors" then
      Event.fromConfigNoInit ∈ loadTrace env ma fa t vh ∧
      Event.loadIntoModule ∈ loadTrace env ma fa t vh ∧
      Event.tensorDeserializerOpen
        (osPathJoin (pathParent ma.model_name_or_path) (pathName ma.model_name_or_path)) ∈
        loadTrace env ma fa t vh ∧
      EventBefore (loadTrace env ma fa t vh) Event.fromConfigNoInit Event.loadIntoModule ∧
      Event.printThroughput ∈ loadTrace env ma fa t vh ∧
      Event.printMemBefore ∈ loadTrace env ma fa t vh ∧
      Event.printMemAfter ∈ loadTrace env ma fa t vh ∧
      (∀ p l, Event.fromPretrained p l ∉ loadTrace env ma fa t vh)
    else
      Event.fromPretrained (pathParent ma.model_name_or_path) (!env.ds_zero3) ∈
        loadTrace env ma fa t vh ∧
      Event.fromConfigNoInit ∉ loadTrace env ma fa t vh ∧
      Event.loadIntoModule ∉ loadTrace env ma fa t vh ∧
      (∀ f, Event.tensorDeserializerOpen f ∉ loadTrace env ma fa t vh) := by
  by_cases hc : strEndsWith (pathName ma.model_name_or_path) ".tensors"
  · rw [if_pos hc]
    refine ⟨by simp [loadTrace, hc], by simp [loadTrace, hc], by simp [loadTrace, hc],
      ?_, by simp [loadTrace, hc], by simp [loadTrace, hc], by simp [loadTrace, hc], ?_⟩
    · simp only [loadTrace, hc, if_true, List.append_assoc, List.cons_append, List.nil_append]
      iterate 10 apply EventBefore.cons
      exact EventBefore.head (by simp)
    · intro p l
      simp only [loadTrace, hc, if_true, List.append_assoc, List.cons_append, List.nil_append,
        vheadTrace, finishTrace]
      split_ifs <;> simp_all <;> rcases ma.adapter_name_or_path with _ | paths <;>
        simp_all <;> rcases paths.getLast? with _ | q <;> simp_all
  · rw [if_neg hc]
    refine ⟨by simp [loadTrace, hc], ?_, ?_, ?_⟩
    · simp only [loadTrace, hc, if_false, Bool.false_eq_true, List.append_assoc,
        List.cons_append, List.nil_append, vheadTrace, finishTrace]
      split_ifs <;> simp_all <;> rcases ma.adapter_name_or_path with _ | paths <;>
        simp_all <;> rcases paths.getLast? with _ | q <;> simp_all
    · simp only [loadTrace, hc, if_false, Bool.false_eq_true, List.append_assoc,
        List.cons_append, List.nil_append, vheadTrace, finishTrace]
      split_ifs <;> simp_all <;> rcases ma.adapter_name_or_path with _ | paths <;>
        simp_all <;> rcases paths.getLast? with _ | q <;> simp_all
    · intro f
      simp only [loadTrace, hc, if_false, Bool.false_eq_true, List.append_assoc,
        List.cons_append, List.nil_append, vheadTrace, finishTrace]
      split_ifs <;> simp_all <;> rcases ma.adapter_name_or_path with _ | paths <;>
        simp_all <;> rcases paths.getLast? with _ | q <;> simp_all

theorem load_mt_ok_elim {oracle : Oracle} {env : Env} {ma : ModelArguments}
    {fa : FinetuningArguments} {t vh : Bool} {r : ModelArguments × Model × Tokenizer}
    (h : (load_model_and_tokenizer oracle env ma fa t vh).2 = Except.ok r) :
    loadResult env ma fa t vh = Except.ok r ∧
    (load_model_and_tokenizer oracle env ma fa t vh).1 = loadTrace env ma fa t vh := by
  rw [load_model_and_tokenizer] at h ⊢
  cases hff : firstFailure oracle (loadTrace env ma fa t vh) with
  | some pr =>
    obtain ⟨pre, err⟩ := pr
    rw [hff] at h
    exact absurd h (by simp)
  | none =>
    rw [hff] at h
    exact ⟨h, rfl⟩

theorem loadResult_isOk (env : Env) (ma : ModelArguments) (fa : FinetuningArguments)
    (t vh : Bool) (hA : ma.adapter_name_or_path ≠ some []) :
    ∃ r, loadResult env ma fa t vh = Except.ok r := by
  rcases hv : vh with _ | _
  · exact ⟨_, rfl⟩
  · rcases ha : ma.adapter_name_or_path with _ | paths
    · simp only [loadResult, ha, reduceIte]
      exact ⟨_, rfl⟩
    · rcases hl : paths.getLast? with _ | p
      · exact absurd (ha.trans (by rw [List.getLast?_eq_none_iff.mp hl])) hA
      · simp only [loadResult, ha, hl, reduceIte]
        exact ⟨_, rfl⟩

theorem loadResult_ok_first_component
    (env : Env) (ma : ModelArguments) (fa : FinetuningArguments) (t vh : Bool)
    (ma2 : ModelArguments) (m : Model) (tok : Tokenizer)
    (h : loadResult env ma fa t vh = Except.ok (ma2, m, tok)) :
    ma2 = { ma with model_name_or_path := pathParent ma.model_name_or_path } := by
  rcases hv : vh with _ | _
  · rw [hv] at h
    simp only [loadResult, Bool.false_eq_true, if_false, Except.ok.injEq, Prod.mk.injEq] at h
    exact h.1.symm
  · rw [hv] at h
    rcases ha : ma.adapter_name_or_path with _ | paths
    · simp only [loadResult, ha, if_true, Except.ok.injEq, Prod.mk.injEq] at h
      exact h.1.symm
    · rcases hl : paths.getLast? with _ | p
      · simp only [loadResult, ha, hl, if_true] at h
        exact Except.noConfusion h
      · simp only [loadResult, ha, hl, if_true, Except.ok.injEq, Prod.mk.injEq] at h
        exact h.1.symm

theorem finishModel_requires_grad_false (ma : ModelArguments) (m : Model) :
    (finishModel ma false m).requires_grad = false := by
  simp [finishModel]
  split <;> rfl

theorem finishModel_training_eq (ma : ModelArguments) (t : Bool) (m : Model) :
    (finishModel ma t m).training = t := by
  rcases t with _ | _
  · simp only [finishModel, Bool.not_false, if_true]
  · simp [finishModel]

/-- C3 (corrected): `model_args` is not left unchanged — line 58 of the
loader reassigns `model_args.model_name_or_path` to the parent-directory
part of its original value.  This theorem pins down the exact mutation: on
any successful call, the returned/mutated argument record equals the
original with only `model_name_or_path` replaced by
`str(Path(original).parent)`. -/
theorem loader_model_args_mutation_exact
    (oracle : Oracle) (env : Env) (ma : ModelArguments) (fa : FinetuningArguments)
    (t vh : Bool) (ma2 : ModelArguments) (m : Model) (tok : Tokenizer)
    (h : (load_model_and_tokenizer oracle env ma fa t vh).2 = Except.ok (ma2, m, tok)) :
    ma2 = { ma with model_name_or_path := pathParent ma.model_name_or_path } :=
  loadResult_ok_first_component env ma fa t vh ma2 m tok (load_mt_ok_elim h).1

/-- C3 counterexample: at the concrete input
`model_name_or_path = "models/llama.tensors"` the call completes and leaves
`model_name_or_path = "models"`, so the field does not keep its value and
`ModelArguments` is not an immutable input. -/
theorem loader_model_args_mutated_cex :
    maTensors.model_name_or_path = "models/llama.tensors" ∧
    (load_model_and_tokenizer noRaise envNone maTensors faLora false false).2.toOption.map
      (fun r => r.1.model_name_or_path) = some "models" := by
  constructor
  · rfl
  · rfl

/-- C4: in every execution with `add_valuehead` true (and a non-empty
adapter list when one is configured), adapter attachment (`init_adapter`)
completes before the value head is attached
(`AutoModelForCausalLMWithValueHead.from_pretrained`), before the
value-head checkpoint is read (`load_valuehead_params`), and before the
checkpointed parameters are merged (`load_state_dict`). -/
theorem loader_adapter_before_valuehead
    (env : Env) (ma : ModelArguments) (fa : FinetuningArguments) (t : Bool)
    (hA : ma.adapter_name_or_path ≠ some []) :
    EventBefore (loadTrace env ma fa t true) Event.initAdapter Event.valueheadFromPretrained ∧
    EventBefore (loadTrace env ma fa t true) Event.initAdapter
      (Event.loadValueheadParams (vheadPathResolved ma)) ∧
    (env.vhead_params_found = true →
      EventBefore (loadTrace env ma fa t true) Event.initAdapter (Event.loadStateDict false)) := by
  have nav : ∀ b : Event,
      (b ∈ Event.valueheadFromPretrained :: Event.patchValueheadModel ::
        (match ma.adapter_name_or_path with
         | some paths =>
           match paths.getLast? with
           | some vhead_path =>
             vheadTrace env vhead_path ++
             finishTrace { ma with model_name_or_path := pathParent ma.model_name_or_path }
               t env.quantization_method
           | none => []
         | none =>
           vheadTrace env (pathParent ma.model_name_or_path) ++
           finishTrace { ma with model_name_or_path := pathParent ma.model_name_or_path }
             t env.quantization_method)) →
      EventBefore (loadTrace env ma fa t true) Event.initAdapter b := by
    intro b hb
    simp only [loadTrace, reduceIte, List.append_assoc, List.cons_append, List.nil_append]
    iterate 9 apply EventBefore.cons
    apply EventBefore.append_left
    iterate 2 apply EventBefore.cons
    apply EventBefore.append_left
    apply EventBefore.append_left
    exact EventBefore.head hb
  refine ⟨nav _ (by simp), nav _ ?_, fun hf => nav _ ?_⟩
  · rcases ha : ma.adapter_name_or_path with _ | paths
    · simp [vheadPathResolved, ha, vheadTrace]
    · rcases hl : paths.getLast? with _ | p
      · exact absurd (ha.trans (by rw [List.getLast?_eq_none_iff.mp hl])) hA
      · simp [vheadPathResolved, ha, vheadTrace, List.getLastD_eq_getLast?, hl]
  · rcases ha : ma.adapter_name_or_path with _ | paths
    · simp [vheadTrace, hf, ha]
    · rcases hl : paths.getLast? with _ | p
      · exact absurd (ha.trans (by rw [List.getLast?_eq_none_iff.mp hl])) hA
      · simp [vheadTrace, hf, ha, hl]

/-- C5: whenever `load_model_and_tokenizer` returns, the model is frozen
(`requires_grad` false) and in eval mode when `is_trainable` is false, in
train mode when it is true, and in both cases the parameter counts are
computed and logged. -/
theorem loader_freeze_eval_train_and_log
    (oracle : Oracle) (env : Env) (ma : ModelArguments) (fa : FinetuningArguments)
    (t vh : Bool) (ma2 : ModelArguments) (m : Model) (tok : Tokenizer)
    (h : (load_model_and_tokenizer oracle env ma fa t vh).2 = Except.ok (ma2, m, tok)) :
    (t = false → m.requires_grad = false ∧ m.training = false) ∧
    (t = true → m.training = true) ∧
    Event.countParameters ∈ (load_model_and_tokenizer oracle env ma fa t vh).1 ∧
    Event.logParams ∈ (load_model_and_tokenizer oracle env ma fa t vh).1 := by
  obtain ⟨hres, htr⟩ := load_mt_ok_elim h
  have hm : ∃ mm, m = finishModel
      { ma with model_name_or_path := pathParent ma.model_name_or_path } t mm := by
    rcases hv : vh with _ | _
    · rw [hv] at hres
      simp only [loadResult, Bool.false_eq_true, if_false, Except.ok.injEq,
        Prod.mk.injEq] at hres
      exact ⟨_, hres.2.1.symm⟩
    · rw [hv] at hres
      rcases ha : ma.adapter_name_or_path with _ | paths
      · simp only [loadResult, ha, reduceIte, Except.ok.injEq, Prod.mk.injEq] at hres
        exact ⟨_, hres.2.1.symm⟩
      · rcases hl : paths.getLast? with _ | p
        · simp only [loadResult, ha, hl, reduceIte] at hres
          exact Except.noConfusion hres
        · simp only [loadResult, ha, hl, reduceIte, Except.ok.injEq, Prod.mk.injEq] at hres
          exact ⟨_, hres.2.1.symm⟩
  obtain ⟨mm, hmm⟩ := hm
  refine ⟨?_, ?_, ?_, ?_⟩
  · intro ht
    rw [hmm, ht]
    exact ⟨finishModel_requires_grad_false _ _, finishModel_training_eq _ _ _⟩
  · intro ht
    rw [hmm, ht]
    exact finishModel_training_eq _ _ _
  · rw [htr]
    rcases hv : vh with _ | _
    · simp [loadTrace, finishTrace]
    · rw [hv] at hres
      rcases ha : ma.adapter_name_or_path with _ | paths
      · simp [loadTrace, ha, finishTrace, vheadTrace]
      · rcases hl : paths.getLast? with _ | p
        · simp only [loadResult, ha, hl, reduceIte] at hres
          exact Except.noConfusion hres
        · simp [loadTrace, ha, hl, finishTrace, vheadTrace]
  · rw [htr]
    rcases hv : vh with _ | _
    · simp [loadTrace, finishTrace]
    · rw [hv] at hres
      rcases ha : ma.adapter_name_or_path with _ | paths
      · simp [loadTrace, ha, finishTrace, vheadTrace]
      · rcases hl : paths.getLast? with _ | p
        · simp only [loadResult, ha, hl, reduceIte] at hres
          exact Except.noConfusion hres
        · simp [loadTrace, ha, hl, finishTrace, vheadTrace]

/-- C6: with `add_valuehead` true the value-head merge is non-strict and
optional: `load_state_dict` is only ever called with `strict = False`, and
only after adapter attachment and value-head attachment; when
`load_valuehead_params` finds nothing the merge is skipped entirely and
the call still succeeds. -/
theorem loader_valuehead_merge_nonstrict_and_optional
    (env : Env) (ma : ModelArguments) (fa : FinetuningArguments) (t : Bool)
    (hA : ma.adapter_name_or_path ≠ some []) :
    Event.loadStateDict true ∉ loadTrace env ma fa t true ∧
    (env.vhead_params_found = true →
      Event.loadStateDict false ∈ loadTrace env ma fa t true ∧
      EventBefore (loadTrace env ma fa t true) Event.initAdapter (Event.loadStateDict false) ∧
      EventBefore (loadTrace env ma fa t true) Event.valueheadFromPretrained
        (Event.loadStateDict false)) ∧
    (env.vhead_params_found = false →
      Event.loadStateDict false ∉ loadTrace env ma fa t true ∧
      ∃ r, loadResult env ma fa t true = Except.ok r) := by
  refine ⟨?_, fun hf => ⟨?_, ?_, ?_⟩, fun hf => ⟨?_, loadResult_isOk env ma fa t true hA⟩⟩
  · by_cases hc : strEndsWith (pathName ma.model_name_or_path) ".tensors" <;>
    · simp only [loadTrace, hc, reduceIte, if_false, Bool.false_eq_true, List.append_assoc,
        List.cons_append, List.nil_append, vheadTrace, finishTrace]
      split_ifs <;> simp_all <;> rcases ma.adapter_name_or_path with _ | paths <;>
        simp_all <;> rcases paths.getLast? with _ | q <;> simp_all
  · rcases ha : ma.adapter_name_or_path with _ | paths
    · simp [loadTrace, ha, vheadTrace, hf]
    · rcases hl : paths.getLast? with _ | p
      · exact absurd (ha.trans (by rw [List.getLast?_eq_none_iff.mp hl])) hA
      · simp [loadTrace, ha, hl, vheadTrace, hf]
  · have nav : ∀ b : Event,
        (b ∈ Event.valueheadFromPretrained :: Event.patchValueheadModel ::
          (match ma.adapter_name_or_path with
           | some paths =>
             match paths.getLast? with
             | some vhead_path =>
               vheadTrace env vhead_path ++
               finishTrace { ma with model_name_or_path := pathParent ma.model_name_or_path }
                 t env.quantization_method
             | none => []
           | none =>
             vheadTrace env (pathParent ma.model_name_or_path) ++
             finishTrace { ma with model_name_or_path := pathParent ma.model_name_or_path }
               t env.quantization_method)) →
        EventBefore (loadTrace env ma fa t true) Event.initAdapter b := by
      intro b hb
      simp only [loadTrace, reduceIte, List.append_assoc, List.cons_append, List.nil_append]
      iterate 9 apply EventBefore.cons
      apply EventBefore.append_left
      iterate 2 apply EventBefore.cons
      apply EventBefore.append_left
      apply EventBefore.append_left
      exact EventBefore.head hb
    apply nav
    rcases ha : ma.adapter_name_or_path with _ | paths
    · simp [vheadTrace, hf]
    · rcases hl : paths.getLast? with _ | p
      · exact absurd (ha.trans (by rw [List.getLast?_eq_none_iff.mp hl])) hA
      · simp [vheadTrace, hf, hl]
  · simp only [loadTrace, reduceIte, List.append_assoc, List.cons_append, List.nil_append]
    iterate 9 apply EventBefore.cons
    apply EventBefore.append_left
    iterate 2 apply EventBefore.cons
    apply EventBefore.append_left
    apply EventBefore.append_left
    apply EventBefore.cons
    apply EventBefore.head
    rcases ha : ma.adapter_name_or_path with _ | paths
    · simp [vheadTrace, hf]
    · rcases hl : paths.getLast? with _ | p
      · exact absurd (ha.trans (by rw [List.getLast?_eq_none_iff.mp hl])) hA
      · simp [vheadTrace, hf, hl]
  · rcases ha : ma.adapter_name_or_path with _ | paths <;>
      [skip; rcases hl : paths.getLast? with _ | p]
    · by_cases hc : strEndsWith (pathName ma.model_name_or_path) ".tensors" <;>
      · simp only [loadTrace, hc, ha, reduceIte, if_false, Bool.false_eq_true, List.append_assoc,
          List.cons_append, List.nil_append, vheadTrace, finishTrace, hf]
        split_ifs <;> simp_all
    · exact absurd (ha.trans (by rw [List.getLast?_eq_none_iff.mp hl])) hA
    · by_cases hc : strEndsWith (pathName ma.model_name_or_path) ".tensors" <;>
      · simp only [loadTrace, hc, ha, hl, reduceIte, if_false, Bool.false_eq_true,
          List.append_assoc, List.cons_append, List.nil_append, vheadTrace, finishTrace, hf]
        split_ifs <;> simp_all

/-- C7: `load_model_and_tokenizer` either returns a pair or fails by
propagating the first external exception unmodified — the trace stops at
the first call the oracle makes raise, its error is returned untouched and
no recovery, retry or translation happens (the sole caveat: a configured
but empty adapter-path list would raise Python's own `IndexError`). -/
theorem loader_error_propagation
    (oracle : Oracle) (env : Env) (ma : ModelArguments) (fa : FinetuningArguments)
    (t vh : Bool) (hA : ma.adapter_name_or_path ≠ some []) :
    (∃ r, (load_model_and_tokenizer oracle env ma fa t vh).2 = Except.ok r) ∨
    (∃ e p ev rest,
       (load_model_and_tokenizer oracle env ma fa t vh).2 = Except.error e ∧
       (load_model_and_tokenizer oracle env ma fa t vh).1 = p ++ [ev] ∧
       loadTrace env ma fa t vh = p ++ ev :: rest ∧
       (∀ x ∈ p, oracle x = none) ∧ oracle ev = some e) := by
  cases hff : firstFailure oracle (loadTrace env ma fa t vh) with
  | some pr =>
    obtain ⟨pre, err⟩ := pr
    have heq : load_model_and_tokenizer oracle env ma fa t vh = (pre, Except.error err) := by
      rw [load_model_and_tokenizer, hff]
    obtain ⟨p, ev, rest, g1, g2, g3, g4⟩ := firstFailure_spec oracle _ _ _ hff
    exact Or.inr ⟨err, p, ev, rest, by rw [heq], by rw [heq, g1], g2, g3, g4⟩
  | none =>
    have heq : load_model_and_tokenizer oracle env ma fa t vh =
        (loadTrace env ma fa t vh, loadResult env ma fa t vh) := by
      rw [load_model_and_tokenizer, hff]
    obtain ⟨r, hr⟩ := loadResult_isOk env ma fa t vh hA
    exact Or.inl ⟨r, by rw [heq]; exact hr⟩

/-- C8: the loader module's import-time `require_version` assertions
succeed exactly when transformers ≥ 4.36.1, datasets ≥ 2.14.3,
accelerate ≥ 0.21.0, peft ≥ 0.7.0 and trl == 0.7.4; when any of them
fails, the failure pre-empts every call to `load_model_and_tokenizer`. -/
theorem loader_import_version_checks (v : InstalledVersions) :
    (loaderModuleChecks v = Except.ok () ↔
      (verGE v.transformers [4, 36, 1] = true ∧ verGE v.datasets [2, 14, 3] = true ∧
       verGE v.accelerate [0, 21, 0] = true ∧ verGE v.peft [0, 7, 0] = true ∧
       verEQ v.trl [0, 7, 4] = true)) ∧
    (∀ e oracle env ma fa t vh, loaderModuleChecks v = Except.error e →
      loadAfterModuleChecks v oracle env ma fa t vh = Except.error e) := by
  constructor
  · cases h1 : verGE v.transformers [4, 36, 1] <;>
    cases h2 : verGE v.datasets [2, 14, 3] <;>
    cases h3 : verGE v.accelerate [0, 21, 0] <;>
    cases h4 : verGE v.peft [0, 7, 0] <;>
    cases h5 : verEQ v.trl [0, 7, 4] <;>
      simp [loaderModuleChecks, require_version, h1, h2, h3, h4, h5]
  · intro e oracle env ma fa t vh h
    rw [loadAfterModuleChecks, h]

set_option maxHeartbeats 2000000 in
/-- C9 (corrected): after weight materialization every execution applies
`patch_model` and `register_autoclass` and — before adapters are attached —
resizes the embedding layer exactly when DeepSpeed ZeRO-3 is not enabled
and prepares the model for training exactly when `is_trainable` is true.
(The unconditional "resizes the embedding layer" of the original claim
fails under ZeRO-3, see the counterexample.) -/
theorem loader_postload_patch_resize_prepare
    (env : Env) (ma : ModelArguments) (fa : FinetuningArguments) (t vh : Bool) :
    Event.patchModel ∈ loadTrace env ma fa t vh ∧
    Event.registerAutoclass ∈ loadTrace env ma fa t vh ∧
    EventBefore (loadTrace env ma fa t vh) Event.patchModel Event.registerAutoclass ∧
    EventBefore (loadTrace env ma fa t vh) Event.registerAutoclass Event.initAdapter ∧
    (strEndsWith (pathName ma.model_name_or_path) ".tensors" = true →
      EventBefore (loadTrace env ma fa t vh) Event.loadIntoModule Event.patchModel) ∧
    (strEndsWith (pathName ma.model_name_or_path) ".tensors" = false →
      EventBefore (loadTrace env ma fa t vh)
        (Event.fromPretrained (pathParent ma.model_name_or_path) (!env.ds_zero3))
        Event.patchModel) ∧
    (env.ds_zero3 = false ↔ Event.resizeEmbeddingLayer ∈ loadTrace env ma fa t vh) ∧
    (env.ds_zero3 = false →
      EventBefore (loadTrace env ma fa t vh) Event.resizeEmbeddingLayer Event.initAdapter) ∧
    (t = true ↔ Event.prepareModelForTraining ∈ loadTrace env ma fa t vh) ∧
    (t = true →
      EventBefore (loadTrace env ma fa t vh) Event.prepareModelForTraining Event.initAdapter) := by
  refine ⟨by simp [loadTrace], by simp [loadTrace], ?_, ?_, ?_, ?_, ⟨?_, ?_⟩, ?_, ⟨?_, ?_⟩, ?_⟩
  · simp only [loadTrace, List.append_assoc, List.cons_append, List.nil_append]
    iterate 9 apply EventBefore.cons
    apply EventBefore.append_left
    exact EventBefore.head (by simp)
  · simp only [loadTrace, List.append_assoc, List.cons_append, List.nil_append]
    iterate 9 apply EventBefore.cons
    apply EventBefore.append_left
    apply EventBefore.cons
    exact EventBefore.head (by simp)
  · intro hc
    simp only [loadTrace, hc, reduceIte, List.append_assoc, List.cons_append, List.nil_append]
    iterate 12 apply EventBefore.cons
    exact EventBefore.head (by simp)
  · intro hc
    simp only [loadTrace, hc, Bool.false_eq_true, if_false, List.append_assoc,
      List.cons_append, List.nil_append]
    iterate 9 apply EventBefore.cons
    exact EventBefore.head (by simp)
  · intro hz
    simp [loadTrace, hz]
  · intro hmem
    cases hz : env.ds_zero3 with
    | false => rfl
    | true =>
      exfalso
      revert hmem
      by_cases hc : strEndsWith (pathName ma.model_name_or_path) ".tensors" <;>
      · simp only [loadTrace, hc, hz, reduceIte, if_false, Bool.false_eq_true,
          Bool.not_true, List.append_assoc, List.cons_append, List.nil_append,
          vheadTrace, finishTrace]
        split_ifs <;> simp_all <;> rcases ma.adapter_name_or_path with _ | paths <;>
          simp_all <;> rcases paths.getLast? with _ | q <;> simp_all
  · intro hz
    simp only [loadTrace, hz, Bool.not_false, reduceIte, List.append_assoc,
      List.cons_append, List.nil_append]
    iterate 9 apply EventBefore.cons
    apply EventBefore.append_left
    iterate 2 apply EventBefore.cons
    exact EventBefore.head (by simp)
  · intro ht
    simp [loadTrace, ht]
  · intro hmem
    cases ht : t with
    | true => rfl
    | false =>
      exfalso
      revert hmem
      by_cases hc : strEndsWith (pathName ma.model_name_or_path) ".tensors" <;>
      · simp only [loadTrace, hc, ht, reduceIte, if_false, Bool.false_eq_true,
          List.append_assoc, List.cons_append, List.nil_append, vheadTrace, finishTrace]
        split_ifs <;> simp_all <;> rcases ma.adapter_name_or_path with _ | paths <;>
          simp_all <;> rcases paths.getLast? with _ | q <;> simp_all
  · intro ht
    simp only [loadTrace, ht, reduceIte, List.append_assoc, List.cons_append, List.nil_append]
    iterate 9 apply EventBefore.cons
    apply EventBefore.append_left
    iterate 2 apply EventBefore.cons
    apply EventBefore.append_left
    exact EventBefore.head (by simp)

/-- C9 counterexample: with DeepSpeed ZeRO-3 enabled the execution
completes but never resizes the embedding layer, so the claim's
unconditional "resizes the embedding layer" is false. -/
theorem loader_resize_skipped_zero3_cex :
    Event.resizeEmbeddingLayer ∉ loadTrace envZero3 maPlain faLora true false ∧
    (loadResult envZero3 maPlain faLora true false).toOption.isSome = true := by
  constructor
  · decide
  · rfl

/-- Sample installed versions satisfying every requirement. -/
def vGood : InstalledVersions :=
  { transformers := [4, 36, 2], datasets := [2, 16, 0], accelerate := [0, 25, 0],
    peft := [0, 7, 1], trl := [0, 7, 4] }

/-- The model object returned by the sample fast-path inference run
(`envNone`, `maTensors`, not trainable, no value head). -/
def mSample : Model :=
  { load_method := LoadMethod.tensorizer, requires_grad := false, training := false,
    dtype := some "float16", quantization_method := none, embedding_resized := true,
    prepared_for_training := false, has_adapter := true, has_valuehead := false,
    vhead_loaded := false }

/-- The tokenizer returned by the sample runs. -/
def tokSample : Tokenizer :=
  { padding_side := "right", use_fast := true, split_special_tokens := false }

/-- The mutated argument record of the sample fast-path run. -/
def maSampleOut : ModelArguments :=
  { maTensors with model_name_or_path := "models" }

theorem loader_tensors_fast_path_iff_witness :
    Event.fromConfigNoInit ∈ loadTrace envNone maTensors faLora false false := by
  have h := loader_tensors_fast_path_iff envNone maTensors faLora false false
  rw [if_pos (show strEndsWith (pathName maTensors.model_name_or_path) ".tensors" = true
    from rfl)] at h
  exact h.1

theorem loader_patches_fixed_order_before_materialization_witness :
    Event.configureQuantization ∈ loadTrace envNone maTensors faLora false false := by
  obtain ⟨rest, h1, -⟩ :=
    loader_patches_fixed_order_before_materialization envNone maTensors faLora false false
  rw [h1]
  simp

theorem loader_model_args_mutation_exact_witness :
    maSampleOut = { maTensors with model_name_or_path := pathParent maTensors.model_name_or_path } :=
  loader_model_args_mutation_exact noRaise envNone maTensors faLora false false
    maSampleOut mSample tokSample (by rfl)

theorem loader_adapter_before_valuehead_witness :
    EventBefore (loadTrace envVhead maPlain faLora false true) Event.initAdapter
      Event.valueheadFromPretrained ∧
    EventBefore (loadTrace envVhead maPlain faLora false true) Event.initAdapter
      (Event.loadValueheadParams (vheadPathResolved maPlain)) ∧
    (envVhead.vhead_params_found = true →
      EventBefore (loadTrace envVhead maPlain faLora false true) Event.initAdapter
        (Event.loadStateDict false)) :=
  loader_adapter_before_valuehead envVhead maPlain faLora false (by decide)

theorem loader_freeze_eval_train_and_log_witness :
    (false = false → mSample.requires_grad = false ∧ mSample.training = false) ∧
    (false = true → mSample.training = true) ∧
    Event.countParameters ∈
      (load_model_and_tokenizer noRaise envNone maTensors faLora false false).1 ∧
    Event.logParams ∈
      (load_model_and_tokenizer noRaise envNone maTensors faLora false false).1 :=
  loader_freeze_eval_train_and_log noRaise envNone maTensors faLora false false
    maSampleOut mSample tokSample (by rfl)

theorem loader_valuehead_merge_nonstrict_and_optional_witness :
    Event.loadStateDict true ∉ loadTrace envVhead maPlain faLora false true ∧
    (envVhead.vhead_params_found = true →
      Event.loadStateDict false ∈ loadTrace envVhead maPlain faLora false true ∧
      EventBefore (loadTrace envVhead maPlain faLora false true) Event.initAdapter
        (Event.loadStateDict false) ∧
      EventBefore (loadTrace envVhead maPlain faLora false true) Event.valueheadFromPretrained
        (Event.loadStateDict false)) ∧
    (envVhead.vhead_params_found = false →
      Event.loadStateDict false ∉ loadTrace envVhead maPlain faLora false true ∧
      ∃ r, loadResult envVhead maPlain faLora false true = Except.ok r) :=
  loader_valuehead_merge_nonstrict_and_optional envVhead maPlain faLora false (by decide)

theorem loader_error_propagation_witness :
    (∃ r, (load_model_and_tokenizer noRaise envNone maPlain faLora true false).2 =
      Except.ok r) ∨
    (∃ e p ev rest,
       (load_model_and_tokenizer noRaise envNone maPlain faLora true false).2 =
         Except.error e ∧
       (load_model_and_tokenizer noRaise envNone maPlain faLora true false).1 = p ++ [ev] ∧
       loadTrace envNone maPlain faLora true false = p ++ ev :: rest ∧
       (∀ x ∈ p, noRaise x = none) ∧ noRaise ev = some e) :=
  loader_error_propagation noRaise envNone maPlain faLora true false (by decide)

theorem loader_import_version_checks_witness :
    loaderModuleChecks vGood = Except.ok () :=
  (loader_import_version_checks vGood).1.mpr (by decide)

theorem loader_postload_patch_resize_prepare_witness :
    Event.patchModel ∈ loadTrace envNone maTensors faLora false false :=
  (loader_postload_patch_resize_prepare envNone maTensors faLora false false).1

theorem loader_tokenizer_padding_side_right_witness :
    tokSample.padding_side = "right" :=
  (loader_tokenizer_padding_side_right envNone maTensors faLora false false).2
    maSampleOut mSample tokSample (by rfl)

end LlamaFactoryTensorized
